import Mathlib

/-!
Connection-and-dispatch engine of the Deribit websocket client.

A shallow embedding of `src/client.go` (package `deribit`): the `Client`
record, `New`, `Subscribe` / `subscribe`, `Start` and `Call`, followed by the
properties of the subscription manager, the authentication gate and the
connect loop.

Modelling conventions

* Go `string` is `String`; `[]string` is `List String`; the Go map
  `map[string]struct{}` is a `Finset String` (only membership is observable).
* A nil-able pointer or interface value is an `Option`.
* Calls that leave the file (`PublicSubscribe`, `PrivateSubscribe`,
  `rpcConn.Call`, `websocket.Dial`, `setToken`) are recorded in a trace, and
  what they return is supplied by the environment as an argument.
-/

set_option autoImplicit false

namespace Deribit

/-! ## Values -/

/-- Go `strings.HasPrefix(s, prefix)`:
`len(s) >= len(prefix) && s[:len(prefix)] == prefix`. -/
def HasPrefix (s pre : String) : Bool :=
  decide (pre.data.length ≤ s.data.length) && (s.data.take pre.data.length == pre.data)

/-- A Go `error` value created by `errors.New`, identified by its message. -/
structure GoError where
  msg : String
  deriving DecidableEq, Repr

def RealBaseURL : String := "wss://www.deribit.com/ws/api/v2/"

def TestBaseURL : String := "wss://test.deribit.com/ws/api/v2/"

def MaxTryTimes : Nat := 10

def ErrAuthenticationIsRequired : GoError := ⟨"authentication is required"⟩

/-- The error built by `errors.New("connect fail")` in `Start`. -/
def errConnectFail : GoError := ⟨"connect fail"⟩

/-- A `context.Context`: the background context or one handed in by the caller. -/
inductive Context where
  | background
  | user (id : Nat)
  deriving DecidableEq, Repr

/-- A live `*websocket.Conn`, identified by a handle. -/
structure Conn where
  id : Nat
  deriving DecidableEq, Repr

/-- A `*jsonrpc2.Conn` as built by `jsonrpc2.NewConn(_, NewObjectStream(conn), c)`:
it is determined by the websocket connection it wraps. -/
structure RpcConn where
  stream : Conn
  deriving DecidableEq, Repr

/-- The value of `emission.NewEmitter()`; it has no state the functions below read. -/
structure Emitter where
  deriving DecidableEq, Repr

structure Configuration where
  Ctx : Option Context
  Addr : String
  ApiKey : String
  SecretKey : String
  AutoReconnect : Bool
  DebugMode : Bool
  deriving DecidableEq

/-- The anonymous struct behind the `auth` field of `Client`. -/
structure Auth where
  token : String
  refresh : String
  deriving DecidableEq

structure Client where
  ctx : Context
  addr : String
  apiKey : String
  secretKey : String
  conn : Option Conn
  rpcConn : Option RpcConn
  auth : Auth
  subscriptions : List String
  subscriptionsMap : Finset String
  emitter : Emitter
  deriving DecidableEq

/-- Go `New`: every field not listed in the composite literal has its zero value. -/
def New (cfg : Configuration) : Client :=
  let ctx := match cfg.Ctx with
    | none => Context.background
    | some ctx => ctx
  { ctx := ctx
    addr := cfg.Addr
    apiKey := cfg.ApiKey
    secretKey := cfg.SecretKey
    conn := none
    rpcConn := none
    auth := ⟨"", ""⟩
    subscriptions := []
    subscriptionsMap := ∅
    emitter := ⟨⟩ }

/-! ## Subscription manager -/

/-- A call made by `subscribe` to one of the two batched subscribe methods,
with the `Channels` of its `models.SubscribeParams`. -/
inductive SubscribeCall where
  | PublicSubscribe (channels : List String)
  | PrivateSubscribe (channels : List String)
  deriving DecidableEq, Repr

/-- The channel list carried by a subscribe call. -/
def SubscribeCall.channels : SubscribeCall → List String
  | .PublicSubscribe chs => chs
  | .PrivateSubscribe chs => chs

def SubscribeCall.isPublic : SubscribeCall → Bool
  | .PublicSubscribe _ => true
  | .PrivateSubscribe _ => false

def SubscribeCall.isPrivate : SubscribeCall → Bool
  | .PublicSubscribe _ => false
  | .PrivateSubscribe _ => true

/-- What the two subscribe methods return when `subscribe` calls them. They are
methods of `Client` defined outside `client.go`; their `error` result
(`none` is Go `nil`) is given by the environment. They are taken to return and
to write neither `subscriptions` nor `subscriptionsMap`. -/
structure SubscribeEnv where
  PublicSubscribe : List String → Option GoError
  PrivateSubscribe : List String → Option GoError

/-- One iteration of `for _, v := range c.subscriptions` in `subscribe`; the
accumulator is `(publicChannels, privateChannels)`. The map is not written
inside the loop. -/
def subscribeStep (active : Finset String) (acc : List String × List String)
    (v : String) : List String × List String :=
  if v ∈ active then acc
  else if HasPrefix v "user." then (acc.1, acc.2 ++ [v])
  else (acc.1 ++ [v], acc.2)

/-- The whole first loop of `subscribe`, started from two nil slices. -/
def splitChannels (c : Client) : List String × List String :=
  c.subscriptions.foldl (subscribeStep c.subscriptionsMap) ([], [])

/-- The loop `for _, v := range allChannels { c.subscriptionsMap[v] = struct{}{} }`. -/
def markActive (m : Finset String) (allChannels : List String) : Finset String :=
  allChannels.foldl (fun acc v => insert v acc) m

/-- Go `(*Client).subscribe`. The argument `channels` is not read by the body;
the results of `PublicSubscribe` and `PrivateSubscribe` are discarded. -/
def Client.subscribe (c : Client) (env : SubscribeEnv) (_channels : List String) :
    Client × List SubscribeCall :=
  let publicChannels := (splitChannels c).1
  let privateChannels := (splitChannels c).2
  let t1 : List SubscribeCall :=
    if publicChannels.length > 0 then
      let _ := env.PublicSubscribe publicChannels
      [SubscribeCall.PublicSubscribe publicChannels]
    else []
  let t2 : List SubscribeCall :=
    if privateChannels.length > 0 then
      let _ := env.PrivateSubscribe privateChannels
      [SubscribeCall.PrivateSubscribe privateChannels]
    else []
  let allChannels := publicChannels ++ privateChannels
  ({ c with subscriptionsMap := markActive c.subscriptionsMap allChannels }, t1 ++ t2)

/-- Go `(*Client).Subscribe`. -/
def Client.Subscribe (c : Client) (env : SubscribeEnv) (channels : List String) :
    Client × List SubscribeCall :=
  Client.subscribe { c with subscriptions := c.subscriptions ++ channels } env channels

/-- A finite sequence of `Subscribe` calls, each with the environment it runs
in; the subscribe calls it issues are collected in order. -/
def runSubscribes (c : Client) : List (SubscribeEnv × List String) → Client × List SubscribeCall
  | [] => (c, [])
  | (env, channels) :: rest =>
    let r := c.Subscribe env channels
    let r2 := runSubscribes r.1 rest
    (r2.1, r.2 ++ r2.2)

/-! ## Connect loop -/

/-- What one `c.connect()` returns: `(conn, _, err)`. -/
structure DialResult where
  conn : Option Conn
  err : Option GoError
  deriving DecidableEq

/-- The `for i := 0; i < MaxTryTimes; i++` loop of `Start`, with `n` iterations
left and `i` calls of `connect` already made; `dial k` is what the `k`-th call
(counted from 0) returns. The result is `c.conn` after the loop and the total
number of `connect` calls. -/
def startLoop (dial : Nat → DialResult) : Nat → Nat → Option Conn × Nat
  | 0, i => (none, i)
  | n + 1, i =>
    match (dial i).err with
    | some _ => startLoop dial n (i + 1)
    | none => ((dial i).conn, i + 1)

structure StartResult where
  client : Client
  err : Option GoError
  attempts : Nat

/-- Go `(*Client).Start`. -/
def Client.Start (c : Client) (dial : Nat → DialResult) : StartResult :=
  let r := startLoop dial MaxTryTimes 0
  match r.1 with
  | none => ⟨{ c with conn := none }, some errConnectFail, r.2⟩
  | some conn => ⟨{ c with conn := some conn, rpcConn := some ⟨conn⟩ }, none, r.2⟩

/-! ## Authentication gate -/

/-- A non-nil `interface{}` value passed as `params`: the identity of the value
and whether its dynamic type implements `privateParams` (has `setToken`). -/
structure Params where
  ref : Nat
  implementsPrivateParams : Bool
  deriving DecidableEq, Repr

/-- What `Call` does outside the client record, in order. -/
inductive Action where
  | setToken (params : Params) (token : String)
  | rpcCall (receiver : Option RpcConn) (ctx : Context) (method : String) (params : Params)
      (result : Nat)
  deriving DecidableEq, Repr

def Action.isRpcCall : Action → Bool
  | .setToken _ _ => false
  | .rpcCall _ _ _ _ _ => true

structure CallResult where
  client : Client
  err : Option GoError
  trace : List Action
  deriving DecidableEq

/-- Go `(*Client).Call`. `emptyParams` is the package variable of that name
(declared outside `client.go`), `rpc` is what `c.rpcConn.Call` returns, and
`result` identifies the result target. -/
def Client.Call (c : Client) (emptyParams : Params)
    (rpc : String → Params → Nat → Option GoError)
    (method : String) (params : Option Params) (result : Nat) : CallResult :=
  let params := match params with
    | none => emptyParams
    | some p => p
  if params.implementsPrivateParams then
    if c.auth.token = "" then
      ⟨c, some ErrAuthenticationIsRequired, []⟩
    else
      ⟨c, rpc method params result,
        [Action.setToken params c.auth.token,
         Action.rpcCall c.rpcConn c.ctx method params result]⟩
  else
    ⟨c, rpc method params result, [Action.rpcCall c.rpcConn c.ctx method params result]⟩

/-! ## Histories of operations -/

/-- An operation of the client together with the environment it runs in. -/
inductive Op where
  | Subscribe (env : SubscribeEnv) (channels : List String)
  | Start (dial : Nat → DialResult)
  | Call (emptyParams : Params) (rpc : String → Params → Nat → Option GoError)
      (method : String) (params : Option Params) (result : Nat)

/-- The client after one operation. -/
def Client.step (c : Client) : Op → Client
  | .Subscribe env channels => (c.Subscribe env channels).1
  | .Start dial => (c.Start dial).client
  | .Call e rpc method params result => (c.Call e rpc method params result).client

/-- The client after a history of operations. -/
def Client.run (c : Client) (ops : List Op) : Client :=
  ops.foldl Client.step c

/-! ## Sample data -/

def sampleCfg : Configuration :=
  ⟨none, TestBaseURL, "key", "secret", false, false⟩

/-- An environment in which every subscribe call succeeds. -/
def okEnv : SubscribeEnv := ⟨fun _ => none, fun _ => none⟩

/-- An environment in which every subscribe call fails on the transport. -/
def failEnv : SubscribeEnv :=
  ⟨fun _ => some ⟨"connection closed"⟩, fun _ => some ⟨"connection closed"⟩⟩

/-- A server that refuses the first three dials and accepts the fourth. -/
def dialThreeFailures (i : Nat) : DialResult :=
  if i < 3 then ⟨none, some ⟨"dial refused"⟩⟩ else ⟨some ⟨7⟩, none⟩

/-- A server that refuses every dial. -/
def dialAlwaysFails (_i : Nat) : DialResult := ⟨none, some ⟨"dial refused"⟩⟩

/-- A client after `New` and a `Start` that connected on the fourth dial: it
holds a connection and an RPC connection. -/
def startedClient : Client := ((New sampleCfg).Start dialThreeFailures).client


/-! ## The subscription manager as stated in the design -/

/-- The wish-list names that are not yet active and public, in wish-list order. -/
def pendingPublic (active : Finset String) (wish : List String) : List String :=
  wish.filter (fun v => decide (v ∉ active) && !HasPrefix v "user.")

/-- The wish-list names that are not yet active and private, in wish-list order. -/
def pendingPrivate (active : Finset String) (wish : List String) : List String :=
  wish.filter (fun v => decide (v ∉ active) && HasPrefix v "user.")

/-- Every wish-list name is marked active. -/
def WishActive (c : Client) : Prop :=
  ∀ v ∈ c.subscriptions, v ∈ c.subscriptionsMap

/-- The number of calls in a trace whose channel list contains `x`. -/
def callsWith (x : String) (calls : List SubscribeCall) : Nat :=
  (calls.filter (fun call => decide (x ∈ call.channels))).length

/-- All names requested over a sequence of `Subscribe` calls. -/
def requested (steps : List (SubscribeEnv × List String)) : List String :=
  steps.flatMap (fun s => s.2)

/-- The subscribe calls issued for a wish-list `wish` against the active set `m`. -/
def issued (m : Finset String) (wish : List String) : List SubscribeCall :=
  (if pendingPublic m wish = [] then [] else [SubscribeCall.PublicSubscribe (pendingPublic m wish)])
    ++ (if pendingPrivate m wish = [] then []
        else [SubscribeCall.PrivateSubscribe (pendingPrivate m wish)])

/-- The values of `publicChannels` and `privateChannels` in the `subscribe`
run by `c.Subscribe channels`. -/
def Client.batches (c : Client) (channels : List String) : List String × List String :=
  splitChannels { c with subscriptions := c.subscriptions ++ channels }

/-- A params value whose type implements `privateParams`. -/
def samplePrivateParams : Params := ⟨1, true⟩

/-- A params value whose type does not implement `privateParams`. -/
def samplePublicParams : Params := ⟨2, false⟩

/-- A stand-in for the package variable `emptyParams`. -/
def sampleEmptyParams : Params := ⟨0, false⟩

/-- A transport on which every call succeeds. -/
def okRpc (_method : String) (_params : Params) (_result : Nat) : Option GoError := none

/-- A client that holds a token. -/
def loggedIn : Client := { New sampleCfg with auth := ⟨"tok", "ref"⟩ }

/-! ## Lemmas on the two loops of `subscribe` -/

theorem foldl_subscribeStep (m : Finset String) (l p q : List String) :
    l.foldl (subscribeStep m) (p, q) = (p ++ pendingPublic m l, q ++ pendingPrivate m l) := by
  induction l generalizing p q with
  | nil => simp [pendingPublic, pendingPrivate]
  | cons v l ih =>
    rw [List.foldl_cons]
    by_cases hm : v ∈ m
    · simp [subscribeStep, hm, ih, pendingPublic, pendingPrivate]
    · by_cases hp : HasPrefix v "user." = true
      · simp [subscribeStep, hm, hp, ih, pendingPublic, pendingPrivate]
      · simp [subscribeStep, hm, hp, ih, pendingPublic, pendingPrivate]

theorem splitChannels_eq (c : Client) :
    splitChannels c =
      (pendingPublic c.subscriptionsMap c.subscriptions,
       pendingPrivate c.subscriptionsMap c.subscriptions) := by
  simp [splitChannels, foldl_subscribeStep]

theorem mem_markActive (m : Finset String) (l : List String) (x : String) :
    x ∈ markActive m l ↔ x ∈ m ∨ x ∈ l := by
  induction l generalizing m with
  | nil => simp [markActive]
  | cons v l ih =>
    have h := ih (insert v m)
    simp only [markActive, List.foldl_cons] at h ⊢
    rw [h]
    simp only [Finset.mem_insert, List.mem_cons]
    tauto

theorem mem_pendingPublic (m : Finset String) (l : List String) (x : String) :
    x ∈ pendingPublic m l ↔ x ∈ l ∧ x ∉ m ∧ HasPrefix x "user." = false := by
  simp [pendingPublic]

theorem mem_pendingPrivate (m : Finset String) (l : List String) (x : String) :
    x ∈ pendingPrivate m l ↔ x ∈ l ∧ x ∉ m ∧ HasPrefix x "user." = true := by
  simp [pendingPrivate]

theorem Subscribe_calls (c : Client) (env : SubscribeEnv) (channels : List String) :
    (c.Subscribe env channels).2 = issued c.subscriptionsMap (c.subscriptions ++ channels) := by
  simp only [Client.Subscribe, Client.subscribe, splitChannels_eq, issued, List.length_pos]
  congr 1
  · by_cases h : pendingPublic c.subscriptionsMap (c.subscriptions ++ channels) = [] <;> simp [h]
  · by_cases h : pendingPrivate c.subscriptionsMap (c.subscriptions ++ channels) = [] <;> simp [h]

theorem Subscribe_client (c : Client) (env : SubscribeEnv) (channels : List String) :
    (c.Subscribe env channels).1 =
      { c with
        subscriptions := c.subscriptions ++ channels
        subscriptionsMap := markActive c.subscriptionsMap
          (pendingPublic c.subscriptionsMap (c.subscriptions ++ channels)
            ++ pendingPrivate c.subscriptionsMap (c.subscriptions ++ channels)) } := by
  simp only [Client.Subscribe, Client.subscribe, splitChannels_eq]

theorem mem_Subscribe_map (c : Client) (env : SubscribeEnv) (channels : List String)
    (x : String) :
    x ∈ (c.Subscribe env channels).1.subscriptionsMap ↔
      x ∈ c.subscriptionsMap ∨ x ∈ c.subscriptions ∨ x ∈ channels := by
  rw [Subscribe_client]
  simp only [mem_markActive, List.mem_append, mem_pendingPublic, mem_pendingPrivate]
  by_cases hm : x ∈ c.subscriptionsMap
  · simp [hm]
  · by_cases hp : HasPrefix x "user." = true
    · simp [hm, hp]
    · simp [hm, hp]

theorem WishActive_Subscribe (c : Client) (env : SubscribeEnv) (channels : List String) :
    WishActive (c.Subscribe env channels).1 := by
  intro v hv
  rw [mem_Subscribe_map]
  rw [Subscribe_client] at hv
  simp only [List.mem_append] at hv
  exact Or.inr hv


/-! ## Counting the calls that carry a name -/

theorem callsWith_append (x : String) (a b : List SubscribeCall) :
    callsWith x (a ++ b) = callsWith x a + callsWith x b := by
  simp [callsWith]

theorem callsWith_issued (m : Finset String) (wish : List String) (x : String) :
    callsWith x (issued m wish) = if x ∈ wish ∧ x ∉ m then 1 else 0 := by
  have hpub := mem_pendingPublic m wish x
  have hpriv := mem_pendingPrivate m wish x
  unfold issued
  rw [callsWith_append]
  by_cases hw : x ∈ wish ∧ x ∉ m
  · obtain ⟨hw1, hw2⟩ := hw
    by_cases hp : HasPrefix x "user." = true
    · have h1 : x ∈ pendingPrivate m wish := hpriv.2 ⟨hw1, hw2, hp⟩
      have h2 : x ∉ pendingPublic m wish := fun h => by
        have := (hpub.1 h).2.2
        rw [hp] at this
        exact Bool.noConfusion this
      have h3 : pendingPrivate m wish ≠ [] := fun h => by rw [h] at h1; simp at h1
      by_cases h4 : pendingPublic m wish = []
      · simp [callsWith, SubscribeCall.channels, h1, h3, h4, hw1, hw2]
      · simp [callsWith, SubscribeCall.channels, h1, h2, h3, h4, hw1, hw2]
    · have hp2 : HasPrefix x "user." = false := by simpa using hp
      have h1 : x ∈ pendingPublic m wish := hpub.2 ⟨hw1, hw2, hp2⟩
      have h2 : x ∉ pendingPrivate m wish := fun h => hp (hpriv.1 h).2.2
      have h3 : pendingPublic m wish ≠ [] := fun h => by rw [h] at h1; simp at h1
      by_cases h4 : pendingPrivate m wish = []
      · simp [callsWith, SubscribeCall.channels, h1, h3, h4, hw1, hw2]
      · simp [callsWith, SubscribeCall.channels, h1, h2, h3, h4, hw1, hw2]
  · have h1 : x ∉ pendingPublic m wish := fun h => hw ⟨(hpub.1 h).1, (hpub.1 h).2.1⟩
    have h2 : x ∉ pendingPrivate m wish := fun h => hw ⟨(hpriv.1 h).1, (hpriv.1 h).2.1⟩
    rw [if_neg hw]
    by_cases h3 : pendingPublic m wish = [] <;> by_cases h4 : pendingPrivate m wish = [] <;>
      simp [callsWith, SubscribeCall.channels, h1, h2, h3, h4]

theorem callsWith_runSubscribes (c : Client) (steps : List (SubscribeEnv × List String))
    (hc : WishActive c) (x : String) :
    callsWith x (runSubscribes c steps).2 =
      if x ∈ requested steps ∧ x ∉ c.subscriptionsMap then 1 else 0 := by
  induction steps generalizing c with
  | nil => simp [runSubscribes, requested, callsWith]
  | cons s rest ih =>
    obtain ⟨env, channels⟩ := s
    have hrest := ih (c.Subscribe env channels).1 (WishActive_Subscribe c env channels)
    have hmem := mem_Subscribe_map c env channels x
    simp only [runSubscribes, callsWith_append, hrest, Subscribe_calls, callsWith_issued]
    have hreq : x ∈ requested ((env, channels) :: rest) ↔ x ∈ channels ∨ x ∈ requested rest := by
      simp [requested]
    by_cases hm : x ∈ c.subscriptionsMap
    · have h1 : x ∈ (c.Subscribe env channels).1.subscriptionsMap := hmem.2 (Or.inl hm)
      simp [hm, h1]
    · have hs : x ∉ c.subscriptions := fun h => hm (hc x h)
      by_cases hch : x ∈ channels
      · have h1 : x ∈ (c.Subscribe env channels).1.subscriptionsMap :=
          hmem.2 (Or.inr (Or.inr hch))
        simp [hm, h1, hch, hreq]
      · have h1 : x ∉ (c.Subscribe env channels).1.subscriptionsMap := fun h => by
          rcases hmem.1 h with h | h | h
          · exact hm h
          · exact hs h
          · exact hch h
        simp [hm, h1, hch, hs, hreq]

theorem WishActive_New (cfg : Configuration) : WishActive (New cfg) := by
  intro v hv
  simp [New] at hv

theorem batches_eq (c : Client) (channels : List String) :
    c.batches channels =
      (pendingPublic c.subscriptionsMap (c.subscriptions ++ channels),
       pendingPrivate c.subscriptionsMap (c.subscriptions ++ channels)) := by
  simp [Client.batches, splitChannels_eq]

theorem mem_issued (m : Finset String) (wish : List String) (call : SubscribeCall) :
    call ∈ issued m wish ↔
      (pendingPublic m wish ≠ [] ∧ call = SubscribeCall.PublicSubscribe (pendingPublic m wish)) ∨
      (pendingPrivate m wish ≠ [] ∧
        call = SubscribeCall.PrivateSubscribe (pendingPrivate m wish)) := by
  unfold issued
  by_cases h1 : pendingPublic m wish = [] <;> by_cases h2 : pendingPrivate m wish = [] <;>
    simp [h1, h2]

/-- C3: in every `Subscribe`, each name of the private batch starts with
`user.` and no name of the public batch does; a wish-list name that is not yet
active is in the batch chosen by that test and not in the other; and the calls
issued carry exactly these batches. -/
theorem routing_by_private_marker (c : Client) (env : SubscribeEnv) (channels : List String) :
    (∀ v ∈ (c.batches channels).2, HasPrefix v "user." = true) ∧
    (∀ v ∈ (c.batches channels).1, HasPrefix v "user." = false) ∧
    (∀ v ∈ c.subscriptions ++ channels, v ∉ c.subscriptionsMap →
      (HasPrefix v "user." = true →
        v ∈ (c.batches channels).2 ∧ v ∉ (c.batches channels).1 ∧
        SubscribeCall.PrivateSubscribe (c.batches channels).2 ∈ (c.Subscribe env channels).2) ∧
      (HasPrefix v "user." = false →
        v ∈ (c.batches channels).1 ∧ v ∉ (c.batches channels).2 ∧
        SubscribeCall.PublicSubscribe (c.batches channels).1 ∈ (c.Subscribe env channels).2)) ∧
    (∀ call ∈ (c.Subscribe env channels).2,
      call = SubscribeCall.PublicSubscribe (c.batches channels).1 ∨
      call = SubscribeCall.PrivateSubscribe (c.batches channels).2) := by
  rw [batches_eq, Subscribe_calls]
  refine ⟨fun v hv => ((mem_pendingPrivate _ _ v).1 hv).2.2,
    fun v hv => ((mem_pendingPublic _ _ v).1 hv).2.2, ?_, ?_⟩
  · intro v hv hm
    constructor
    · intro hp
      have h1 : v ∈ pendingPrivate c.subscriptionsMap (c.subscriptions ++ channels) :=
        (mem_pendingPrivate _ _ v).2 ⟨hv, hm, hp⟩
      refine ⟨h1, fun h => ?_, ?_⟩
      · have := ((mem_pendingPublic _ _ v).1 h).2.2
        rw [hp] at this
        exact Bool.noConfusion this
      · exact (mem_issued _ _ _).2 (Or.inr ⟨fun h => by rw [h] at h1; simp at h1, rfl⟩)
    · intro hp
      have h1 : v ∈ pendingPublic c.subscriptionsMap (c.subscriptions ++ channels) :=
        (mem_pendingPublic _ _ v).2 ⟨hv, hm, hp⟩
      refine ⟨h1, fun h => ?_, ?_⟩
      · have := ((mem_pendingPrivate _ _ v).1 h).2.2
        rw [hp] at this
        exact Bool.noConfusion this
      · exact (mem_issued _ _ _).2 (Or.inl ⟨fun h => by rw [h] at h1; simp at h1, rfl⟩)
  · intro call hcall
    rcases (mem_issued _ _ _).1 hcall with h | h
    · exact Or.inl h.2
    · exact Or.inr h.2

theorem routing_by_private_marker_witness :
    "user.trades" ∈ (New sampleCfg).subscriptions ++ ["book.BTC", "user.trades"] ∧
    "user.trades" ∉ (New sampleCfg).subscriptionsMap ∧
    HasPrefix "user.trades" "user." = true ∧
    "user.trades" ∈ ((New sampleCfg).batches ["book.BTC", "user.trades"]).2 ∧
    "user.trades" ∉ ((New sampleCfg).batches ["book.BTC", "user.trades"]).1 ∧
    SubscribeCall.PrivateSubscribe ((New sampleCfg).batches ["book.BTC", "user.trades"]).2 ∈
      ((New sampleCfg).Subscribe okEnv ["book.BTC", "user.trades"]).2 :=
  ⟨by decide, by decide, by decide,
    ((routing_by_private_marker (New sampleCfg) okEnv ["book.BTC", "user.trades"]).2.2.1
      "user.trades" (by decide) (by decide)).1 (by decide)⟩


theorem issued_of_all_active (m : Finset String) (wish : List String)
    (h : ∀ v ∈ wish, v ∈ m) : issued m wish = [] := by
  have h1 : pendingPublic m wish = [] := by
    rw [List.eq_nil_iff_forall_not_mem]
    intro v hv
    have := (mem_pendingPublic m wish v).1 hv
    exact this.2.1 (h v this.1)
  have h2 : pendingPrivate m wish = [] := by
    rw [List.eq_nil_iff_forall_not_mem]
    intro v hv
    have := (mem_pendingPrivate m wish v).1 hv
    exact this.2.1 (h v this.1)
  simp [issued, h1, h2]

theorem pending_of_all_active (m : Finset String) (wish : List String)
    (h : ∀ v ∈ wish, v ∈ m) : pendingPublic m wish = [] ∧ pendingPrivate m wish = [] := by
  constructor
  · rw [List.eq_nil_iff_forall_not_mem]
    intro v hv
    have := (mem_pendingPublic m wish v).1 hv
    exact this.2.1 (h v this.1)
  · rw [List.eq_nil_iff_forall_not_mem]
    intro v hv
    have := (mem_pendingPrivate m wish v).1 hv
    exact this.2.1 (h v this.1)

/-- C4, counterexample: on a client that `Start` has connected,
`Subscribe(["book.BTC"])` issues a `PublicSubscribe` that returns a transport
error and `Subscribe(["user.trades"])` issues a `PrivateSubscribe` that returns
a transport error; both names are in the active set afterwards, and the
identical calls made again issue no subscribe call. -/
theorem failed_batch_is_marked_active :
    startedClient.rpcConn = some ⟨⟨7⟩⟩ ∧
    failEnv.PublicSubscribe ["book.BTC"] = some ⟨"connection closed"⟩ ∧
    (startedClient.Subscribe failEnv ["book.BTC"]).2 =
      [SubscribeCall.PublicSubscribe ["book.BTC"]] ∧
    "book.BTC" ∈ (startedClient.Subscribe failEnv ["book.BTC"]).1.subscriptionsMap ∧
    ((startedClient.Subscribe failEnv ["book.BTC"]).1.Subscribe okEnv ["book.BTC"]).2 = [] ∧
    failEnv.PrivateSubscribe ["user.trades"] = some ⟨"connection closed"⟩ ∧
    (startedClient.Subscribe failEnv ["user.trades"]).2 =
      [SubscribeCall.PrivateSubscribe ["user.trades"]] ∧
    "user.trades" ∈ (startedClient.Subscribe failEnv ["user.trades"]).1.subscriptionsMap ∧
    ((startedClient.Subscribe failEnv ["user.trades"]).1.Subscribe okEnv
      ["user.trades"]).2 = [] := by
  decide

/-- C4, amended: what the subscribe calls return has no effect on `Subscribe`.
Whatever `PublicSubscribe` and `PrivateSubscribe` return, the client after the
call and the calls issued are the same, every name of every issued batch is in
the active set afterwards, and an identical `Subscribe` made next issues no
subscribe call and leaves the active set as it is. -/
theorem subscribe_marks_batches_whatever_the_outcome (c : Client) (env : SubscribeEnv)
    (channels : List String) :
    (∀ env2 : SubscribeEnv, c.Subscribe env2 channels = c.Subscribe env channels) ∧
    (∀ call ∈ (c.Subscribe env channels).2, ∀ v ∈ call.channels,
      v ∈ (c.Subscribe env channels).1.subscriptionsMap) ∧
    (∀ env2 : SubscribeEnv,
      ((c.Subscribe env channels).1.Subscribe env2 channels).2 = [] ∧
      ((c.Subscribe env channels).1.Subscribe env2 channels).1.subscriptionsMap =
        (c.Subscribe env channels).1.subscriptionsMap) := by
  refine ⟨fun _ => rfl, ?_, ?_⟩
  · intro call hcall v hv
    rw [mem_Subscribe_map]
    rw [Subscribe_calls, mem_issued] at hcall
    rcases hcall with ⟨_, rfl⟩ | ⟨_, rfl⟩
    · have := ((mem_pendingPublic _ _ v).1 hv).1
      exact Or.inr (List.mem_append.1 this)
    · have := ((mem_pendingPrivate _ _ v).1 hv).1
      exact Or.inr (List.mem_append.1 this)
  · intro env2
    have hall : ∀ v ∈ (c.Subscribe env channels).1.subscriptions ++ channels,
        v ∈ (c.Subscribe env channels).1.subscriptionsMap := by
      intro v hv
      rw [mem_Subscribe_map]
      rw [Subscribe_client] at hv
      simp only [List.mem_append] at hv
      rcases hv with (h | h) | h
      · exact Or.inr (Or.inl h)
      · exact Or.inr (Or.inr h)
      · exact Or.inr (Or.inr h)
    constructor
    · rw [Subscribe_calls]
      exact issued_of_all_active _ _ hall
    · obtain ⟨h1, h2⟩ := pending_of_all_active _ _ hall
      rw [Subscribe_client (c.Subscribe env channels).1]
      simp only [h1, h2, List.append_nil]
      rfl

theorem subscribe_marks_batches_whatever_the_outcome_witness :
    startedClient.rpcConn = some ⟨⟨7⟩⟩ ∧
    failEnv.PrivateSubscribe ["user.trades"] = some ⟨"connection closed"⟩ ∧
    SubscribeCall.PrivateSubscribe ["user.trades"] ∈
      (startedClient.Subscribe failEnv ["user.trades"]).2 ∧
    "user.trades" ∈ (SubscribeCall.PrivateSubscribe ["user.trades"]).channels ∧
    "user.trades" ∈ (startedClient.Subscribe failEnv ["user.trades"]).1.subscriptionsMap :=
  ⟨by decide, by decide, by decide, by decide,
    (subscribe_marks_batches_whatever_the_outcome startedClient failEnv ["user.trades"]).2.1
      (SubscribeCall.PrivateSubscribe ["user.trades"]) (by decide) "user.trades" (by decide)⟩

/-- C6, the code at the failing input: on a fresh client `Subscribe(["a", "a"])`
issues one `PublicSubscribe` whose channel list is `["a", "a"]`, so the name
`a` is in that list twice. -/
theorem repeated_name_is_sent_twice :
    ((New sampleCfg).Subscribe okEnv ["a", "a"]).2 = [SubscribeCall.PublicSubscribe ["a", "a"]] ∧
    ¬ (["a", "a"] : List String).Nodup ∧
    List.count "a" ((New sampleCfg).batches ["a", "a"]).1 = 2 := by
  decide


/-- C8: each batch carried by a subscribe call of `Subscribe` is the
accumulated wish-list (the old wish-list followed by the argument) filtered to
the not-yet-active names of that visibility, in wish-list order; it is a
sublist of the wish-list; and two `Subscribe` calls with the same accumulated
wish-list and the same active set issue the same calls, however the names are
divided between the old wish-list and the argument. -/
theorem batch_order_follows_wish_list (c : Client) (env : SubscribeEnv)
    (channels : List String) :
    (∀ b, SubscribeCall.PublicSubscribe b ∈ (c.Subscribe env channels).2 →
      b = (c.subscriptions ++ channels).filter
            (fun v => decide (v ∉ c.subscriptionsMap) && !HasPrefix v "user.") ∧
      List.Sublist b (c.subscriptions ++ channels)) ∧
    (∀ b, SubscribeCall.PrivateSubscribe b ∈ (c.Subscribe env channels).2 →
      b = (c.subscriptions ++ channels).filter
            (fun v => decide (v ∉ c.subscriptionsMap) && HasPrefix v "user.") ∧
      List.Sublist b (c.subscriptions ++ channels)) ∧
    (∀ (c2 : Client) (env2 : SubscribeEnv) (channels2 : List String),
      c2.subscriptions ++ channels2 = c.subscriptions ++ channels →
      c2.subscriptionsMap = c.subscriptionsMap →
      (c2.Subscribe env2 channels2).2 = (c.Subscribe env channels).2) := by
  refine ⟨?_, ?_, ?_⟩
  · intro b hb
    rw [Subscribe_calls, mem_issued] at hb
    rcases hb with ⟨_, h⟩ | ⟨_, h⟩
    · injection h with h
      subst h
      exact ⟨rfl, List.filter_sublist _⟩
    · exact SubscribeCall.noConfusion h
  · intro b hb
    rw [Subscribe_calls, mem_issued] at hb
    rcases hb with ⟨_, h⟩ | ⟨_, h⟩
    · exact SubscribeCall.noConfusion h
    · injection h with h
      subst h
      exact ⟨rfl, List.filter_sublist _⟩
  · intro c2 env2 channels2 hw hm
    rw [Subscribe_calls, Subscribe_calls, hw, hm]

theorem batch_order_follows_wish_list_witness :
    SubscribeCall.PublicSubscribe ["b", "a"] ∈
      ((New sampleCfg).Subscribe okEnv ["b", "user.x", "a"]).2 ∧
    ["b", "a"] = ((New sampleCfg).subscriptions ++ ["b", "user.x", "a"]).filter
      (fun v => decide (v ∉ (New sampleCfg).subscriptionsMap) && !HasPrefix v "user.") ∧
    List.Sublist ["b", "a"] ((New sampleCfg).subscriptions ++ ["b", "user.x", "a"]) :=
  ⟨by decide,
    (batch_order_follows_wish_list (New sampleCfg) okEnv ["b", "user.x", "a"]).1 ["b", "a"]
      (by decide)⟩

/-- C9: one `Subscribe` issues at most one `PublicSubscribe` and at most one
`PrivateSubscribe`; `PublicSubscribe` is issued exactly when some wish-list
name is not active and public, `PrivateSubscribe` exactly when some wish-list
name is not active and private; when every wish-list name (argument included)
is active, or the wish-list is empty, no call is issued and the active set is
unchanged. -/
theorem at_most_one_call_per_visibility (c : Client) (env : SubscribeEnv)
    (channels : List String) :
    ((c.Subscribe env channels).2.filter SubscribeCall.isPublic).length ≤ 1 ∧
    ((c.Subscribe env channels).2.filter SubscribeCall.isPrivate).length ≤ 1 ∧
    ((∃ b, SubscribeCall.PublicSubscribe b ∈ (c.Subscribe env channels).2) ↔
      ∃ v ∈ c.subscriptions ++ channels,
        v ∉ c.subscriptionsMap ∧ HasPrefix v "user." = false) ∧
    ((∃ b, SubscribeCall.PrivateSubscribe b ∈ (c.Subscribe env channels).2) ↔
      ∃ v ∈ c.subscriptions ++ channels,
        v ∉ c.subscriptionsMap ∧ HasPrefix v "user." = true) ∧
    ((∀ v ∈ c.subscriptions ++ channels, v ∈ c.subscriptionsMap) →
      (c.Subscribe env channels).2 = [] ∧
      (c.Subscribe env channels).1.subscriptionsMap = c.subscriptionsMap) ∧
    (c.subscriptions ++ channels = [] →
      (c.Subscribe env channels).2 = [] ∧
      (c.Subscribe env channels).1.subscriptionsMap = c.subscriptionsMap) := by
  have hall : (∀ v ∈ c.subscriptions ++ channels, v ∈ c.subscriptionsMap) →
      (c.Subscribe env channels).2 = [] ∧
      (c.Subscribe env channels).1.subscriptionsMap = c.subscriptionsMap := by
    intro h
    obtain ⟨h1, h2⟩ := pending_of_all_active _ _ h
    constructor
    · rw [Subscribe_calls]
      exact issued_of_all_active _ _ h
    · rw [Subscribe_client]
      simp only [h1, h2, List.append_nil]
      rfl
  refine ⟨?_, ?_, ?_, ?_, hall, ?_⟩
  · rw [Subscribe_calls]
    unfold issued
    by_cases h1 : pendingPublic c.subscriptionsMap (c.subscriptions ++ channels) = [] <;>
    by_cases h2 : pendingPrivate c.subscriptionsMap (c.subscriptions ++ channels) = [] <;>
      simp [h1, h2, SubscribeCall.isPublic]
  · rw [Subscribe_calls]
    unfold issued
    by_cases h1 : pendingPublic c.subscriptionsMap (c.subscriptions ++ channels) = [] <;>
    by_cases h2 : pendingPrivate c.subscriptionsMap (c.subscriptions ++ channels) = [] <;>
      simp [h1, h2, SubscribeCall.isPrivate]
  · rw [Subscribe_calls]
    constructor
    · rintro ⟨b, hb⟩
      rcases (mem_issued _ _ _).1 hb with ⟨hne, _⟩ | ⟨_, h⟩
      · obtain ⟨v, hv⟩ := List.exists_mem_of_ne_nil _ hne
        exact ⟨v, (mem_pendingPublic _ _ v).1 hv⟩
      · exact SubscribeCall.noConfusion h
    · rintro ⟨v, hv⟩
      have hmem := (mem_pendingPublic c.subscriptionsMap _ v).2 hv
      exact ⟨_, (mem_issued _ _ _).2 (Or.inl ⟨List.ne_nil_of_mem hmem, rfl⟩)⟩
  · rw [Subscribe_calls]
    constructor
    · rintro ⟨b, hb⟩
      rcases (mem_issued _ _ _).1 hb with ⟨_, h⟩ | ⟨hne, _⟩
      · exact SubscribeCall.noConfusion h
      · obtain ⟨v, hv⟩ := List.exists_mem_of_ne_nil _ hne
        exact ⟨v, (mem_pendingPrivate _ _ v).1 hv⟩
    · rintro ⟨v, hv⟩
      have hmem := (mem_pendingPrivate c.subscriptionsMap _ v).2 hv
      exact ⟨_, (mem_issued _ _ _).2 (Or.inr ⟨List.ne_nil_of_mem hmem, rfl⟩)⟩
  · intro h
    apply hall
    intro v hv
    rw [h] at hv
    simp at hv

theorem at_most_one_call_per_visibility_witness :
    (∀ v ∈ ((New sampleCfg).Subscribe okEnv ["a", "user.b"]).1.subscriptions ++ ["user.b", "a"],
      v ∈ ((New sampleCfg).Subscribe okEnv ["a", "user.b"]).1.subscriptionsMap) ∧
    ((((New sampleCfg).Subscribe okEnv ["a", "user.b"]).1.Subscribe okEnv ["user.b", "a"]).2 = [] ∧
     (((New sampleCfg).Subscribe okEnv ["a", "user.b"]).1.Subscribe okEnv
        ["user.b", "a"]).1.subscriptionsMap =
      ((New sampleCfg).Subscribe okEnv ["a", "user.b"]).1.subscriptionsMap) :=
  ⟨by decide,
    (at_most_one_call_per_visibility ((New sampleCfg).Subscribe okEnv ["a", "user.b"]).1 okEnv
      ["user.b", "a"]).2.2.2.2.1 (by decide)⟩


/-! ## Authentication gate -/

/-- C2: for every method and every params value whose type implements
`privateParams`, `Call` on a client with an empty auth token returns
`ErrAuthenticationIsRequired`, makes neither the `setToken` call nor the
`rpcConn.Call` call and returns the client unchanged; a client fresh from
`New` has an empty token, so this holds for it. -/
theorem gated_call_without_token (c : Client) (emptyParams : Params)
    (rpc : String → Params → Nat → Option GoError) (method : String) (p : Params)
    (result : Nat) (hp : p.implementsPrivateParams = true) :
    (c.auth.token = "" →
      (c.Call emptyParams rpc method (some p) result).err = some ErrAuthenticationIsRequired ∧
      (c.Call emptyParams rpc method (some p) result).trace = [] ∧
      (c.Call emptyParams rpc method (some p) result).client = c) ∧
    (∀ cfg : Configuration,
      (New cfg).auth.token = "" ∧
      ((New cfg).Call emptyParams rpc method (some p) result).err =
        some ErrAuthenticationIsRequired ∧
      ((New cfg).Call emptyParams rpc method (some p) result).trace = [] ∧
      ((New cfg).Call emptyParams rpc method (some p) result).client = New cfg) := by
  have key : ∀ c : Client, c.auth.token = "" →
      c.Call emptyParams rpc method (some p) result = ⟨c, some ErrAuthenticationIsRequired, []⟩ := by
    intro c hc
    simp [Client.Call, hp, hc]
  constructor
  · intro hc
    rw [key c hc]
    exact ⟨rfl, rfl, rfl⟩
  · intro cfg
    have h0 : (New cfg).auth.token = "" := rfl
    rw [key (New cfg) h0]
    exact ⟨h0, rfl, rfl, rfl⟩

theorem gated_call_without_token_witness :
    samplePrivateParams.implementsPrivateParams = true ∧
    (New sampleCfg).auth.token = "" ∧
    ((New sampleCfg).Call sampleEmptyParams okRpc "private/get_positions"
        (some samplePrivateParams) 5).err = some ErrAuthenticationIsRequired ∧
    ((New sampleCfg).Call sampleEmptyParams okRpc "private/get_positions"
        (some samplePrivateParams) 5).trace = [] ∧
    ((New sampleCfg).Call sampleEmptyParams okRpc "private/get_positions"
        (some samplePrivateParams) 5).client = New sampleCfg :=
  ⟨by decide, by decide,
    (gated_call_without_token (New sampleCfg) sampleEmptyParams okRpc "private/get_positions"
      samplePrivateParams 5 (by decide)).1 (by decide)⟩

/-- C7: a `Call` with params implementing `privateParams` and a non-empty
token first calls `setToken` on the params with the token of the client, then calls
`rpcConn.Call` once with the same context, method, params and result target,
and returns what that call returns; params that do not implement
`privateParams` are passed to `rpcConn.Call` as they are, once, whatever the
token is; nil params are replaced by `emptyParams`. The client is unchanged. -/
theorem call_injects_token_and_forwards (c : Client) (emptyParams : Params)
    (rpc : String → Params → Nat → Option GoError) (method : String) (p : Params)
    (result : Nat) :
    (p.implementsPrivateParams = true → c.auth.token ≠ "" →
      c.Call emptyParams rpc method (some p) result =
        ⟨c, rpc method p result,
          [Action.setToken p c.auth.token, Action.rpcCall c.rpcConn c.ctx method p result]⟩) ∧
    (p.implementsPrivateParams = false →
      c.Call emptyParams rpc method (some p) result =
        ⟨c, rpc method p result, [Action.rpcCall c.rpcConn c.ctx method p result]⟩) ∧
    (c.Call emptyParams rpc method none result =
      c.Call emptyParams rpc method (some emptyParams) result) ∧
    (emptyParams.implementsPrivateParams = false →
      c.Call emptyParams rpc method none result =
        ⟨c, rpc method emptyParams result,
          [Action.rpcCall c.rpcConn c.ctx method emptyParams result]⟩) ∧
    ((c.Call emptyParams rpc method (some p) result).trace.filter Action.isRpcCall).length ≤ 1 := by
  refine ⟨?_, ?_, rfl, ?_, ?_⟩
  · intro hp ht
    simp [Client.Call, hp, ht]
  · intro hp
    simp [Client.Call, hp]
  · intro he
    simp [Client.Call, he]
  · unfold Client.Call
    by_cases hp : p.implementsPrivateParams = true
    · by_cases ht : c.auth.token = ""
      · simp [hp, ht]
      · simp [hp, ht, Action.isRpcCall]
    · simp [hp, Action.isRpcCall]

theorem call_injects_token_and_forwards_witness :
    (samplePrivateParams.implementsPrivateParams = true ∧ loggedIn.auth.token ≠ "" ∧
      loggedIn.Call sampleEmptyParams okRpc "private/get_positions" (some samplePrivateParams) 5 =
        ⟨loggedIn, okRpc "private/get_positions" samplePrivateParams 5,
          [Action.setToken samplePrivateParams loggedIn.auth.token,
           Action.rpcCall loggedIn.rpcConn loggedIn.ctx "private/get_positions"
             samplePrivateParams 5]⟩) ∧
    (samplePublicParams.implementsPrivateParams = false ∧
      (New sampleCfg).Call sampleEmptyParams okRpc "public/test" (some samplePublicParams) 6 =
        ⟨New sampleCfg, okRpc "public/test" samplePublicParams 6,
          [Action.rpcCall (New sampleCfg).rpcConn (New sampleCfg).ctx "public/test"
            samplePublicParams 6]⟩) :=
  ⟨⟨by decide, by decide,
      (call_injects_token_and_forwards loggedIn sampleEmptyParams okRpc "private/get_positions"
        samplePrivateParams 5).1 (by decide) (by decide)⟩,
    ⟨by decide,
      (call_injects_token_and_forwards (New sampleCfg) sampleEmptyParams okRpc "public/test"
        samplePublicParams 6).2.1 (by decide)⟩⟩

/-! ## Connect loop -/

theorem startLoop_all_fail (dial : Nat → DialResult) (n i : Nat)
    (h : ∀ j, i ≤ j → j < i + n → (dial j).err ≠ none) :
    startLoop dial n i = (none, i + n) := by
  induction n generalizing i with
  | zero => rfl
  | succ n ih =>
    have hi : (dial i).err ≠ none := h i (Nat.le_refl i) (by omega)
    obtain ⟨e, he⟩ : ∃ e, (dial i).err = some e := by
      cases hd : (dial i).err with
      | none => exact absurd hd hi
      | some e => exact ⟨e, rfl⟩
    have hrec := ih (i + 1) (fun j h1 h2 => h j (by omega) (by omega))
    simp only [startLoop, he, hrec]
    congr 1
    omega

theorem startLoop_first_success (dial : Nat → DialResult) (n i j : Nat) (hj : j < n)
    (hfail : ∀ t, i ≤ t → t < i + j → (dial t).err ≠ none)
    (hok : (dial (i + j)).err = none) :
    startLoop dial n i = ((dial (i + j)).conn, i + j + 1) := by
  induction j generalizing n i with
  | zero =>
    obtain ⟨n, rfl⟩ : ∃ m, n = m + 1 := ⟨n - 1, by omega⟩
    simp only [Nat.add_zero] at hok ⊢
    simp only [startLoop, hok]
  | succ j ih =>
    obtain ⟨n, rfl⟩ : ∃ m, n = m + 1 := ⟨n - 1, by omega⟩
    have hi : (dial i).err ≠ none := hfail i (Nat.le_refl i) (by omega)
    obtain ⟨e, he⟩ : ∃ e, (dial i).err = some e := by
      cases hd : (dial i).err with
      | none => exact absurd hd hi
      | some e => exact ⟨e, rfl⟩
    have hok2 : (dial (i + 1 + j)).err = none := by
      have : i + 1 + j = i + (j + 1) := by omega
      rw [this]
      exact hok
    have hrec := ih n (i + 1) (by omega) (fun t h1 h2 => hfail t (by omega) (by omega)) hok2
    simp only [startLoop, he, hrec]
    have : i + 1 + j = i + (j + 1) := by omega
    rw [this]

theorem Start_of_loop_none (c : Client) (dial : Nat → DialResult) (n : Nat)
    (h : startLoop dial MaxTryTimes 0 = (none, n)) :
    c.Start dial = ⟨{ c with conn := none }, some errConnectFail, n⟩ := by
  simp only [Client.Start, h]

theorem Start_of_loop_some (c : Client) (dial : Nat → DialResult) (conn : Conn) (n : Nat)
    (h : startLoop dial MaxTryTimes 0 = (some conn, n)) :
    c.Start dial = ⟨{ c with conn := some conn, rpcConn := some ⟨conn⟩ }, none, n⟩ := by
  simp only [Client.Start, h]

/-- C5: if each of the first `MaxTryTimes` (10) dials fails, `Start` makes
exactly 10 dial attempts, returns the connect-failure error and leaves `conn`
nil; if attempts `1 .. k-1` fail and attempt `k <= MaxTryTimes` succeeds with
connection `conn`, `Start` makes exactly `k` attempts, stores `conn` in the
client, builds the RPC connection on it and returns nil. -/
theorem Start_attempt_count (c : Client) (dial : Nat → DialResult) :
    ((∀ i, i < MaxTryTimes → (dial i).err ≠ none) →
      (c.Start dial).attempts = MaxTryTimes ∧ MaxTryTimes = 10 ∧
      (c.Start dial).err = some errConnectFail ∧
      (c.Start dial).client.conn = none) ∧
    (∀ (k : Nat) (conn : Conn), 1 ≤ k → k ≤ MaxTryTimes →
      (∀ i, i < k - 1 → (dial i).err ≠ none) →
      dial (k - 1) = ⟨some conn, none⟩ →
      (c.Start dial).attempts = k ∧
      (c.Start dial).client.conn = some conn ∧
      (c.Start dial).client.rpcConn = some ⟨conn⟩ ∧
      (c.Start dial).err = none) := by
  constructor
  · intro h
    have hl := startLoop_all_fail dial MaxTryTimes 0
      (fun j _ h2 => h j (by simpa using h2))
    simp only [Nat.zero_add] at hl
    rw [Start_of_loop_none c dial _ hl]
    exact ⟨rfl, rfl, rfl, rfl⟩
  · intro k conn hk1 hk2 hfail hok
    have hl := startLoop_first_success dial MaxTryTimes 0 (k - 1) (by omega)
      (fun t _ h2 => hfail t (by simpa using h2)) (by simp [hok])
    simp only [Nat.zero_add, hok] at hl
    have hk : k - 1 + 1 = k := by omega
    rw [hk] at hl
    rw [Start_of_loop_some c dial conn k hl]
    exact ⟨rfl, rfl, rfl, rfl⟩

theorem Start_attempt_count_witness :
    ((∀ i, i < MaxTryTimes → (dialAlwaysFails i).err ≠ none) ∧
      ((New sampleCfg).Start dialAlwaysFails).attempts = MaxTryTimes ∧ MaxTryTimes = 10 ∧
      ((New sampleCfg).Start dialAlwaysFails).err = some errConnectFail ∧
      ((New sampleCfg).Start dialAlwaysFails).client.conn = none) ∧
    ((1 ≤ 4 ∧ 4 ≤ MaxTryTimes) ∧
      (∀ i, i < 4 - 1 → (dialThreeFailures i).err ≠ none) ∧
      dialThreeFailures (4 - 1) = ⟨some ⟨7⟩, none⟩ ∧
      ((New sampleCfg).Start dialThreeFailures).attempts = 4 ∧
      ((New sampleCfg).Start dialThreeFailures).client.conn = some ⟨7⟩ ∧
      ((New sampleCfg).Start dialThreeFailures).client.rpcConn = some ⟨⟨7⟩⟩ ∧
      ((New sampleCfg).Start dialThreeFailures).err = none) :=
  ⟨⟨by decide, (Start_attempt_count (New sampleCfg) dialAlwaysFails).1 (by decide)⟩,
    ⟨by decide, by decide, by decide,
      (Start_attempt_count (New sampleCfg) dialThreeFailures).2 4 ⟨7⟩ (by decide) (by decide)
        (by decide) (by decide)⟩⟩

/-! ## Frame of `Start` -/

theorem Start_frame (c : Client) (dial : Nat → DialResult) :
    (c.Start dial).client.subscriptions = c.subscriptions ∧
    (c.Start dial).client.subscriptionsMap = c.subscriptionsMap ∧
    (c.Start dial).client.auth = c.auth ∧
    (c.Start dial).client.addr = c.addr ∧
    (c.Start dial).client.apiKey = c.apiKey ∧
    (c.Start dial).client.secretKey = c.secretKey ∧
    (c.Start dial).client.ctx = c.ctx ∧
    (c.Start dial).client.emitter = c.emitter := by
  rcases h : startLoop dial MaxTryTimes 0 with ⟨_ | conn, n⟩
  · rw [Start_of_loop_none c dial n h]
    exact ⟨rfl, rfl, rfl, rfl, rfl, rfl, rfl, rfl⟩
  · rw [Start_of_loop_some c dial conn n h]
    exact ⟨rfl, rfl, rfl, rfl, rfl, rfl, rfl, rfl⟩

theorem Call_client (c : Client) (emptyParams : Params)
    (rpc : String → Params → Nat → Option GoError) (method : String) (params : Option Params)
    (result : Nat) : (c.Call emptyParams rpc method params result).client = c := by
  simp only [Client.Call]
  split_ifs <;> rfl

theorem WishActive_step (c : Client) (op : Op) (h : WishActive c) : WishActive (c.step op) := by
  cases op with
  | Subscribe env channels => exact WishActive_Subscribe c env channels
  | Start dial =>
    intro v hv
    have hf := Start_frame c dial
    simp only [Client.step] at hv ⊢
    rw [hf.1] at hv
    rw [hf.2.1]
    exact h v hv
  | Call e rpc method params result =>
    simp only [Client.step, Call_client]
    exact h

theorem WishActive_run (c : Client) (ops : List Op) (h : WishActive c) :
    WishActive (c.run ops) := by
  induction ops generalizing c with
  | nil => exact h
  | cons op ops ih => exact ih (c.step op) (WishActive_step c op h)

theorem Subscribe_rpcConn (c : Client) (env : SubscribeEnv) (channels : List String) :
    (c.Subscribe env channels).1.rpcConn = c.rpcConn := by
  rw [Subscribe_client]

theorem runSubscribes_rpcConn (c : Client) (steps : List (SubscribeEnv × List String)) :
    (runSubscribes c steps).1.rpcConn = c.rpcConn := by
  induction steps generalizing c with
  | nil => rfl
  | cons s rest ih =>
    obtain ⟨env, channels⟩ := s
    simp only [runSubscribes]
    rw [ih, Subscribe_rpcConn]

theorem Start_ok_rpcConn (c : Client) (dial : Nat → DialResult)
    (h : (c.Start dial).err = none) :
    ∃ rc, (c.Start dial).client.rpcConn = some rc ∧ (c.Start dial).client.conn = some rc.stream := by
  rcases hl : startLoop dial MaxTryTimes 0 with ⟨_ | conn, n⟩
  · rw [Start_of_loop_none c dial n hl] at h
    exact Option.noConfusion h
  · rw [Start_of_loop_some c dial conn n hl]
    exact ⟨⟨conn⟩, rfl, rfl⟩

/-- C1: take a client created by `New` and started by `Start`. Over any finite
sequence of `Subscribe` calls, each with arbitrary outcomes of the subscribe
calls, every requested channel name is in the channel list of exactly one of
the subscribe calls issued over the whole sequence, however often it was
requested. When `Start` returned nil the client holds an RPC connection on the
dialled connection, and holds the same one after the whole sequence. -/
theorem each_requested_channel_in_exactly_one_call (cfg : Configuration)
    (dial : Nat → DialResult) (steps : List (SubscribeEnv × List String)) (x : String)
    (hx : x ∈ requested steps) :
    callsWith x (runSubscribes ((New cfg).Start dial).client steps).2 = 1 ∧
    (((New cfg).Start dial).err = none →
      ∃ rc, ((New cfg).Start dial).client.rpcConn = some rc ∧
        ((New cfg).Start dial).client.conn = some rc.stream ∧
        (runSubscribes ((New cfg).Start dial).client steps).1.rpcConn = some rc) := by
  have hf := Start_frame (New cfg) dial
  have hw : WishActive ((New cfg).Start dial).client := by
    intro v hv
    rw [hf.1] at hv
    simp [New] at hv
  have hn : x ∉ ((New cfg).Start dial).client.subscriptionsMap := by
    rw [hf.2.1]
    simp [New]
  constructor
  · rw [callsWith_runSubscribes _ steps hw x]
    simp [hx, hn]
  · intro hok
    obtain ⟨rc, h1, h2⟩ := Start_ok_rpcConn (New cfg) dial hok
    exact ⟨rc, h1, h2, by rw [runSubscribes_rpcConn, h1]⟩

theorem each_requested_channel_in_exactly_one_call_witness :
    "book.BTC" ∈ requested [(okEnv, ["book.BTC", "user.trades"]),
        (failEnv, ["user.trades", "book.BTC", "book.BTC"])] ∧
    ((New sampleCfg).Start dialThreeFailures).err = none ∧
    callsWith "book.BTC" (runSubscribes ((New sampleCfg).Start dialThreeFailures).client
        [(okEnv, ["book.BTC", "user.trades"]),
         (failEnv, ["user.trades", "book.BTC", "book.BTC"])]).2 = 1 ∧
    (∃ rc, ((New sampleCfg).Start dialThreeFailures).client.rpcConn = some rc ∧
      ((New sampleCfg).Start dialThreeFailures).client.conn = some rc.stream ∧
      (runSubscribes ((New sampleCfg).Start dialThreeFailures).client
        [(okEnv, ["book.BTC", "user.trades"]),
         (failEnv, ["user.trades", "book.BTC", "book.BTC"])]).1.rpcConn = some rc) :=
  ⟨by decide, by decide,
    (each_requested_channel_in_exactly_one_call sampleCfg dialThreeFailures _ "book.BTC"
      (by decide)).1,
    (each_requested_channel_in_exactly_one_call sampleCfg dialThreeFailures
      [(okEnv, ["book.BTC", "user.trades"]), (failEnv, ["user.trades", "book.BTC", "book.BTC"])]
      "book.BTC" (by decide)).2 (by decide)⟩

/-- C10: `Start` changes only `conn` and `rpcConn`: for every client and every
sequence of dial outcomes the wish-list, the active set, the auth token pair,
the address, the credentials, the context and the emitter after `Start` are
those before it. A name active before `Start` is active after it; a
`Subscribe` of that name made next issues no call that carries the name, and
for a client reached from `New` by any history of `Subscribe`, `Start` and
`Call` it issues no subscribe call at all. -/
theorem Start_changes_only_connection (c : Client) (dial : Nat → DialResult) :
    ((c.Start dial).client.subscriptions = c.subscriptions ∧
     (c.Start dial).client.subscriptionsMap = c.subscriptionsMap ∧
     (c.Start dial).client.auth = c.auth ∧
     (c.Start dial).client.addr = c.addr ∧
     (c.Start dial).client.apiKey = c.apiKey ∧
     (c.Start dial).client.secretKey = c.secretKey ∧
     (c.Start dial).client.ctx = c.ctx ∧
     (c.Start dial).client.emitter = c.emitter) ∧
    (∀ x, x ∈ c.subscriptionsMap →
      x ∈ (c.Start dial).client.subscriptionsMap ∧
      ∀ env : SubscribeEnv,
        (∀ call ∈ ((c.Start dial).client.Subscribe env [x]).2, x ∉ call.channels) ∧
        ((∃ (cfg : Configuration) (ops : List Op), c = (New cfg).run ops) →
          ((c.Start dial).client.Subscribe env [x]).2 = [])) := by
  have hf := Start_frame c dial
  refine ⟨hf, ?_⟩
  intro x hx
  have hx2 : x ∈ (c.Start dial).client.subscriptionsMap := by rw [hf.2.1]; exact hx
  refine ⟨hx2, fun env => ⟨?_, ?_⟩⟩
  · intro call hcall hmem
    have hcount := callsWith_issued (c.Start dial).client.subscriptionsMap
      ((c.Start dial).client.subscriptions ++ [x]) x
    rw [← Subscribe_calls _ env] at hcount
    simp only [hx2, not_true_eq_false, and_false, if_false] at hcount
    unfold callsWith at hcount
    rw [List.length_eq_zero, List.filter_eq_nil_iff] at hcount
    exact (hcount call hcall) (by simpa using hmem)
  · rintro ⟨cfg, ops, rfl⟩
    have hw : WishActive ((New cfg).run ops) := WishActive_run _ ops (WishActive_New cfg)
    rw [Subscribe_calls]
    apply issued_of_all_active
    intro v hv
    rw [hf.1, hf.2.1] at *
    rcases List.mem_append.1 hv with h | h
    · exact hw v h
    · rw [List.mem_singleton.1 h]
      exact hx

theorem Start_changes_only_connection_witness :
    "book.BTC" ∈ ((New sampleCfg).run [Op.Subscribe okEnv ["book.BTC"]]).subscriptionsMap ∧
    "book.BTC" ∈ (((New sampleCfg).run [Op.Subscribe okEnv ["book.BTC"]]).Start
        dialAlwaysFails).client.subscriptionsMap ∧
    ((((New sampleCfg).run [Op.Subscribe okEnv ["book.BTC"]]).Start
        dialAlwaysFails).client.Subscribe okEnv ["book.BTC"]).2 = [] :=
  ⟨by decide,
    ((Start_changes_only_connection ((New sampleCfg).run [Op.Subscribe okEnv ["book.BTC"]])
        dialAlwaysFails).2 "book.BTC" (by decide)).1,
    (((Start_changes_only_connection ((New sampleCfg).run [Op.Subscribe okEnv ["book.BTC"]])
        dialAlwaysFails).2 "book.BTC" (by decide)).2 okEnv).2
      ⟨sampleCfg, [Op.Subscribe okEnv ["book.BTC"]], rfl⟩⟩

end Deribit
